import Mathlib

/-!
Verification of the event-sourced core of the recommendation backend.

Shallow embedding of:
* `app/services/event_store.py` (`EventStore.append_event`, `get_events`,
  `_get_current_version`, `ConcurrencyException`);
* `app/services/projections.py` (`CulturalProfileProjection`);
* `app/services/stream_processor.py` (cross-platform correlation detector
  and `_calculate_diversity_score`);
* `app/services/notification_service.py` (creation with rate limiting,
  the delivery loop, `mark_notification_read`);
* `app/services/cqrs.py` (`CQRSMediator.send_command` for the diversity
  score command) together with `app/services/event_handlers.py`.

Python dictionaries are embedded as structures carrying the fields the
code actually reads, sets are embedded through `List.dedup`, database
tables as lists, and wall-clock timestamps are passed in explicitly as
integers (seconds).
-/

namespace EventStoreModel

/-- Payload fields of `event_data` that the profile projection reads
(`event_data.get(key, default)` becomes an `Option` or a defaulted field). -/
structure EventData where
  new_score : Option ℚ := none
  old_score : Option ℚ := none
  pattern_type : Option String := none
  confidence : Option ℚ := none
  platforms : List String := []
  category : Option String := none
  description : Option String := none
  nodes : List String := []
  edges : List String := []
  deriving Repr, DecidableEq

/-- Row of the `cultural_events` table (`app/models/events.py`), restricted to
the columns the verified services read.  `occurred_at` is epoch seconds. -/
structure CulturalEvent where
  event_id : String
  aggregate_id : String
  event_type : String
  version : Nat
  event_data : EventData
  occurred_at : Int
  correlation_id : Option String := none
  causation_id : Option String := none
  source_service : Option String := none
  deriving Repr, DecidableEq

/-- The event store table: the list of rows in insertion order. -/
abbrev Store := List CulturalEvent

/-- Error raised by `append_event` when the optimistic concurrency check
fails (`ConcurrencyException` in `event_store.py`). -/
inductive ConcurrencyException where
  | conflict (expected current : Nat)
  deriving Repr, DecidableEq

/-- Mirror of `EventStore._get_current_version`: the maximal stored `version`
for the aggregate, `0` when the aggregate has no events
(`SELECT version ... ORDER BY version DESC LIMIT 1`, then `version or 0`). -/
def getCurrentVersion (store : Store) (aggregate_id : String) : Nat :=
  ((store.filter (fun e => e.aggregate_id == aggregate_id)).map
    (fun e => e.version)).foldr max 0

/-- Input of one `append_event` call.  `occurred_at` stands for the
`datetime.utcnow()` read inside the call and `event_id` for the generated
primary key. -/
structure AppendRequest where
  aggregate_id : String
  event_type : String
  event_data : EventData
  expected_version : Nat
  occurred_at : Int
  event_id : String
  correlation_id : Option String := none
  causation_id : Option String := none
  source_service : Option String := none
  deriving Repr, DecidableEq

/-- Mirror of `EventStore.append_event`: compare `expected_version` with the
current version; on mismatch raise `ConcurrencyException` leaving the table
untouched, otherwise insert one row with `version = current + 1`.  The
returned pair is (result, table after the call). -/
def appendEvent (store : Store) (r : AppendRequest) :
    Except ConcurrencyException CulturalEvent × Store :=
  let current := getCurrentVersion store r.aggregate_id
  if current ≠ r.expected_version then
    (.error (.conflict r.expected_version current), store)
  else
    let e : CulturalEvent :=
      { event_id := r.event_id
        aggregate_id := r.aggregate_id
        event_type := r.event_type
        version := current + 1
        event_data := r.event_data
        occurred_at := r.occurred_at
        correlation_id := r.correlation_id
        causation_id := r.causation_id
        source_service := r.source_service }
    (.ok e, store ++ [e])

/-- Version-order comparison used by `get_events` (`ORDER BY version ASC`). -/
def versionLE (a b : CulturalEvent) : Prop := a.version ≤ b.version

instance : DecidableRel versionLE := fun a b =>
  inferInstanceAs (Decidable (a.version ≤ b.version))

instance : IsTotal CulturalEvent versionLE := ⟨fun x y => Nat.le_total x.version y.version⟩

instance : IsTrans CulturalEvent versionLE := ⟨fun _ _ _ h h2 => Nat.le_trans h h2⟩

/-- Mirror of `EventStore.get_events`: rows of the aggregate with
`version > from_version`, and `version <= to_version` when a bound is given,
ordered by ascending version. -/
def getEvents (store : Store) (aggregate_id : String) (from_version : Nat := 0)
    (to_version : Option Nat := none) : List CulturalEvent :=
  let filtered := store.filter (fun (e : CulturalEvent) =>
    e.aggregate_id == aggregate_id && decide (from_version < e.version))
  let bounded :=
    match to_version with
    | some tv => filtered.filter (fun (e : CulturalEvent) => decide (e.version ≤ tv))
    | none => filtered
  bounded.insertionSort versionLE

/-- Versions currently stored for one aggregate, in table order. -/
def versionsOf (store : Store) (aggregate_id : String) : List Nat :=
  (store.filter (fun e => e.aggregate_id == aggregate_id)).map
    (fun e => e.version)

/-- Folding a whole list of `append_event` calls, starting from a store;
each call keeps the table of the previous one whether it succeeded or not. -/
def runAppends (reqs : List AppendRequest) : Store :=
  reqs.foldl (fun s r => (appendEvent s r).2) []

/-- String value of `EventType.SOCIAL_DATA_INGESTED`. -/
def socialDataIngested : String := "social_data_ingested"

/-- String value of `EventType.CULTURAL_PATTERN_DETECTED`. -/
def culturalPatternDetected : String := "cultural_pattern_detected"

/-- String value of `EventType.DIVERSITY_SCORE_UPDATED`. -/
def diversityScoreUpdated : String := "diversity_score_updated"

/-- String value of `EventType.INFLUENCE_NETWORK_UPDATED`. -/
def influenceNetworkUpdated : String := "influence_network_updated"

/-- String value of `EventType.BLIND_SPOT_IDENTIFIED`. -/
def blindSpotIdentified : String := "blind_spot_identified"

end EventStoreModel

namespace ProjectionModel

open EventStoreModel

/-- Entry appended to `evolution_data["patterns"]` by
`CulturalProfileProjection._handle_cultural_pattern_detected`. -/
structure PatternEntry where
  timestamp : Int
  pattern_type : Option String
  confidence : Option ℚ
  platforms : List String
  deriving Repr, DecidableEq

/-- Entry appended to `blind_spots` by `_handle_blind_spot_identified`. -/
structure BlindSpotEntry where
  identified_at : Int
  category : Option String
  description : Option String
  confidence : Option ℚ
  deriving Repr, DecidableEq

/-- Row of the `cultural_profiles` table as maintained by
`CulturalProfileProjection`: the event-derived columns.  The wall-clock
bookkeeping column `updated_at` (set to `datetime.utcnow()` on every write)
is metadata outside the event-determined state and is not modelled. -/
structure CulturalProfile where
  user_id : String
  diversity_score : ℚ
  evolution_patterns : List PatternEntry
  influence_network : EventData
  blind_spots : List BlindSpotEntry
  last_analysis : Option Int
  deriving Repr, DecidableEq

/-- Fresh profile created by `_ensure_profile_exists` when the row is
missing (`diversity_score=0.0`, empty evolution data, network and spots). -/
def newProfile (user_id : String) : CulturalProfile :=
  { user_id := user_id
    diversity_score := 0
    evolution_patterns := []
    influence_network := {}
    blind_spots := []
    last_analysis := none }

/-- Mirror of `_ensure_profile_exists`: keep the row if present, insert a
default one otherwise. -/
def ensureProfileExists (p : Option CulturalProfile) (user_id : String) :
    CulturalProfile :=
  match p with
  | some pr => pr
  | none => newProfile user_id

/-- Mirror of `_handle_social_data_ingested`: ensure the row exists, then
set `last_analysis` to the occurrence time of the event. -/
def handleSocialDataIngested (p : Option CulturalProfile) (e : CulturalEvent) :
    Option CulturalProfile :=
  let pr := ensureProfileExists p e.aggregate_id
  some { pr with last_analysis := some e.occurred_at }

/-- Mirror of `_handle_diversity_score_updated`: an SQL `UPDATE` of the row,
so a no-op when the row is missing; `event_data.get("new_score", 0.0)`. -/
def handleDiversityScoreUpdated (p : Option CulturalProfile)
    (e : CulturalEvent) : Option CulturalProfile :=
  match p with
  | none => none
  | some pr => some { pr with diversity_score := e.event_data.new_score.getD 0 }

/-- Mirror of `_handle_cultural_pattern_detected`: append one pattern entry
to the evolution data; the final `UPDATE` is a no-op on a missing row. -/
def handleCulturalPatternDetected (p : Option CulturalProfile)
    (e : CulturalEvent) : Option CulturalProfile :=
  match p with
  | none => none
  | some pr =>
    some { pr with evolution_patterns := pr.evolution_patterns ++
      [{ timestamp := e.occurred_at
         pattern_type := e.event_data.pattern_type
         confidence := e.event_data.confidence
         platforms := e.event_data.platforms }] }

/-- Mirror of `_handle_influence_network_updated`: overwrite the network
column with the event payload; a no-op on a missing row. -/
def handleInfluenceNetworkUpdated (p : Option CulturalProfile)
    (e : CulturalEvent) : Option CulturalProfile :=
  match p with
  | none => none
  | some pr => some { pr with influence_network := e.event_data }

/-- Mirror of `_handle_blind_spot_identified`: append one blind-spot entry;
a no-op on a missing row. -/
def handleBlindSpotIdentified (p : Option CulturalProfile)
    (e : CulturalEvent) : Option CulturalProfile :=
  match p with
  | none => none
  | some pr =>
    some { pr with blind_spots := pr.blind_spots ++
      [{ identified_at := e.occurred_at
         category := e.event_data.category
         description := e.event_data.description
         confidence := e.event_data.confidence }] }

/-- Mirror of `CulturalProfileProjection.project_event`: dispatch on the
event type; event types outside the handled set leave the row unchanged. -/
def projectEvent (p : Option CulturalProfile) (e : CulturalEvent) :
    Option CulturalProfile :=
  if e.event_type == socialDataIngested then handleSocialDataIngested p e
  else if e.event_type == diversityScoreUpdated then
    handleDiversityScoreUpdated p e
  else if e.event_type == culturalPatternDetected then
    handleCulturalPatternDetected p e
  else if e.event_type == influenceNetworkUpdated then
    handleInfluenceNetworkUpdated p e
  else if e.event_type == blindSpotIdentified then
    handleBlindSpotIdentified p e
  else p

/-- Mirror of `CulturalProfileProjection.rebuild_projection`: fetch the full
event history via `get_events`, clear the existing row
(`_clear_projection` deletes it), then replay every event through
`project_event`.  `pre` is the row before the rebuild; it is discarded. -/
def rebuildProjection (store : Store) (aggregate_id : String)
    (pre : Option CulturalProfile) : Option CulturalProfile :=
  let events := getEvents store aggregate_id
  let cleared : Option CulturalProfile := none
  let _ := pre
  events.foldl projectEvent cleared

end ProjectionModel

namespace StreamModel

/-- Kafka-side event consumed by `CulturalStreamProcessor`
(`kafka_service.CulturalEvent`).  Of the `data` dictionary only
`cultural_categories` is read by the detectors, so it is embedded as a
field (`data.get("cultural_categories", [])`); `timestamp` is epoch
seconds. -/
structure StreamEvent where
  event_id : String
  user_id : String
  event_type : String
  platform : String
  cultural_categories : List String
  timestamp : Nat
  deriving Repr, DecidableEq

/-- Detected pattern (`stream_processor.CulturalPattern`), restricted to the
fields the cross-platform detector fills deterministically from its input;
`detected_at`/`expires_at` are wall-clock outputs passed through `now`. -/
structure CulturalPattern where
  pattern_id : String
  user_id : String
  pattern_type : String
  confidence : ℚ
  platforms : List String
  window_key : Nat
  event_count : Nat
  detected_at : Int
  expires_at : Int
  deriving Repr, DecidableEq

/-- Threshold `self.thresholds["cross_platform_correlation"]`. -/
def crossPlatformThreshold : ℚ := 7 / 10

/-- Five-minute slice key of an event:
`int(event.timestamp.timestamp() // 300)`. -/
def sliceKey (e : StreamEvent) : Nat := e.timestamp / 300

/-- Keys of the `time_windows` dictionary in first-insertion order, as a
Python `dict` built by appending produces them. -/
def windowKeys (l : List Nat) : List Nat :=
  l.foldl (fun acc k => if k ∈ acc then acc else acc ++ [k]) []

/-- Body of the slice loop of `_detect_cross_platform_correlation`: the
events of the slice `k` among the recent ones, their distinct platforms
(a Python `set`, embedded with `List.dedup`), and one pattern when the
slice spans at least 2 platforms with correlation strength
`min(count / 3, 1)` at or above the threshold. -/
def slicePattern (now : Int) (user_id : String) (recent : List StreamEvent)
    (k : Nat) : Option CulturalPattern :=
  let windowEvents := recent.filter (fun e => sliceKey e == k)
  let platforms := (windowEvents.map (fun e => e.platform)).dedup
  if 2 ≤ platforms.length then
    let strength : ℚ := min ((platforms.length : ℚ) / 3) 1
    if crossPlatformThreshold ≤ strength then
      some { pattern_id :=
               "cross_platform_" ++ user_id ++ "_" ++ toString k
             user_id := user_id
             pattern_type := "cross_platform_correlation"
             confidence := strength
             platforms := platforms
             window_key := k
             event_count := windowEvents.length
             detected_at := now
             expires_at := now + 3600 }
    else none
  else none

/-- Mirror of `_detect_cross_platform_correlation`: bucket the last 20
events into 5-minute slices and run the slice body over the slice keys in
first-insertion order. -/
def detectCrossPlatformCorrelation (now : Int) (user_id : String)
    (events : List StreamEvent) : List CulturalPattern :=
  let recent := events.drop (events.length - 20)
  (windowKeys (recent.map sliceKey)).filterMap
    (slicePattern now user_id recent)

/-- Mirror of `_calculate_diversity_score`: distinct categories over all
events divided by 10, distinct platforms divided by 3, then the average of
the two clipped from above at 1; an empty list scores 0. -/
def calculateDiversityScore (events : List StreamEvent) : ℚ :=
  if events = [] then 0
  else
    let categories := (events.flatMap (fun e => e.cultural_categories)).dedup
    let platforms := (events.map (fun e => e.platform)).dedup
    let category_diversity : ℚ := (categories.length : ℚ) / 10
    let platform_diversity : ℚ := (platforms.length : ℚ) / 3
    min ((category_diversity + platform_diversity) / 2) 1

/-- Clip of a rational to the unit interval. -/
def clip01 (q : ℚ) : ℚ := max 0 (min q 1)

/-- Diversity score as the specification words it: the average of the two
normalized counts with EACH component clipped to the unit interval before
averaging.  Stated only to be compared against `calculateDiversityScore`,
which is the translation of the source. -/
def specDiversityScore (events : List StreamEvent) : ℚ :=
  if events = [] then 0
  else
    let categories := (events.flatMap (fun e => e.cultural_categories)).dedup
    let platforms := (events.map (fun e => e.platform)).dedup
    (clip01 ((categories.length : ℚ) / 10) +
      clip01 ((platforms.length : ℚ) / 3)) / 2

/-- Synthetic event on one platform inside slice 0. -/
def w4Spotify : StreamEvent :=
  { event_id := "s1"
    user_id := "user-1"
    event_type := "listen"
    platform := "spotify"
    cultural_categories := ["music"]
    timestamp := 0 }

/-- Synthetic event on a second platform inside slice 0. -/
def w4Instagram : StreamEvent :=
  { event_id := "s2"
    user_id := "user-1"
    event_type := "post"
    platform := "instagram"
    cultural_categories := ["art"]
    timestamp := 10 }

/-- Synthetic event on a third platform inside slice 0. -/
def w4Tiktok : StreamEvent :=
  { event_id := "s3"
    user_id := "user-1"
    event_type := "view"
    platform := "tiktok"
    cultural_categories := ["dance"]
    timestamp := 20 }

/-- Three synthetic events from 3 distinct platforms in one 5-minute
slice. -/
def w4Events : List StreamEvent := [w4Spotify, w4Instagram, w4Tiktok]

/-- Event carrying 11 distinct cultural categories on a single platform:
its normalized category count 11/10 exceeds 1, which separates clipping
the components from clipping the average. -/
def w5Event : StreamEvent :=
  { event_id := "d1"
    user_id := "user-1"
    event_type := "post"
    platform := "spotify"
    cultural_categories := ["c1", "c2", "c3", "c4", "c5", "c6", "c7", "c8",
      "c9", "c10", "c11"]
    timestamp := 0 }

end StreamModel

namespace NotificationModel

/-- Priorities of `NotificationPriority`, in enum declaration order. -/
inductive NotificationPriority where
  | low
  | medium
  | high
  | urgent
  deriving Repr, DecidableEq

/-- Iteration order of `for priority in NotificationPriority` (Python
iterates an enum in declaration order). -/
def priorityEnumOrder : List NotificationPriority :=
  [.low, .medium, .high, .urgent]

/-- Types of `NotificationType`. -/
inductive NotificationType where
  | cultural_insight
  | trend_alert
  | diversity_milestone
  | recommendation
  | pattern_detected
  | social_update
  | system_alert
  deriving Repr, DecidableEq

/-- The `CulturalNotification` dataclass.  The `data` payload is embedded as
string pairs; times are epoch seconds. -/
structure CulturalNotification where
  notification_id : String
  user_id : String
  notification_type : NotificationType
  priority : NotificationPriority
  title : String
  message : String
  data : List (String × String) := []
  created_at : Int
  expires_at : Option Int := none
  read : Bool := false
  delivered : Bool := false
  delivery_attempts : Nat := 0
  max_delivery_attempts : Nat := 3
  deriving Repr, DecidableEq

/-- The `self.stats` dictionary of the service.  `last_delivery` is
wall-clock metadata and not modelled. -/
structure NotificationStats where
  notifications_created : Nat := 0
  notifications_delivered : Nat := 0
  notifications_failed : Nat := 0
  delivery_attempts : Nat := 0
  deriving Repr, DecidableEq

/-- Rate-limit cool-down per priority, in seconds
(`self.rate_limits`: 30 min, 15 min, 5 min, 30 s). -/
def rateLimit : NotificationPriority → Int
  | .low => 1800
  | .medium => 900
  | .high => 300
  | .urgent => 30

/-- Lookup in an association list, the embedding of a Python `dict`. -/
def alistGet {α β : Type} [BEq α] : List (α × β) → α → Option β
  | [], _ => none
  | kv :: rest, k => if kv.1 == k then some kv.2 else alistGet rest k

/-- Overwrite-or-insert in an association list (`d[k] = v`). -/
def alistSet {α β : Type} [BEq α] (l : List (α × β)) (k : α) (v : β) :
    List (α × β) :=
  match l with
  | [] => [(k, v)]
  | kv :: rest =>
    if kv.1 == k then (k, v) :: rest else kv :: alistSet rest k v

/-- In-memory state of `CulturalNotificationService`: the four priority
queues, user preferences, the per-user per-priority time of the last
successfully created notification, and statistics. -/
structure ServiceState where
  queue_low : List CulturalNotification := []
  queue_medium : List CulturalNotification := []
  queue_high : List CulturalNotification := []
  queue_urgent : List CulturalNotification := []
  user_preferences : List (String × List (NotificationType × Bool)) := []
  last_notification_time : List (String × List (NotificationPriority × Int)) := []
  stats : NotificationStats := {}
  deriving Repr, DecidableEq

/-- The queue `self.notification_queues[priority]`. -/
def queueOf (s : ServiceState) : NotificationPriority → List CulturalNotification
  | .low => s.queue_low
  | .medium => s.queue_medium
  | .high => s.queue_high
  | .urgent => s.queue_urgent

/-- Replacement of one priority queue. -/
def setQueue (s : ServiceState) (p : NotificationPriority)
    (q : List CulturalNotification) : ServiceState :=
  match p with
  | .low => { s with queue_low := q }
  | .medium => { s with queue_medium := q }
  | .high => { s with queue_high := q }
  | .urgent => { s with queue_urgent := q }

/-- Mirror of `_check_rate_limit`: allowed when the user or the priority has
no recorded last time, otherwise when the cool-down has fully elapsed
(`time_since_last >= self.rate_limits[priority]`). -/
def checkRateLimit (s : ServiceState) (now : Int) (user_id : String)
    (priority : NotificationPriority) : Bool :=
  match alistGet s.last_notification_time user_id with
  | none => true
  | some user_times =>
    match alistGet user_times priority with
    | none => true
    | some last => rateLimit priority ≤ now - last

/-- Mirror of `_update_rate_limit`: record `now` for the user and priority. -/
def updateRateLimit (s : ServiceState) (now : Int) (user_id : String)
    (priority : NotificationPriority) : ServiceState :=
  let user_times := (alistGet s.last_notification_time user_id).getD []
  { s with
      last_notification_time :=
        alistSet s.last_notification_time user_id
          (alistSet user_times priority now) }

/-- Mirror of `_should_send_notification`: the preference for the type,
defaulting to enabled. -/
def shouldSendNotification (s : ServiceState) (user_id : String)
    (notification_type : NotificationType) : Bool :=
  (alistGet ((alistGet s.user_preferences user_id).getD [])
    notification_type).getD true

/-- Mirror of `create_notification`.  `now` stands for `datetime.utcnow()`
and `nid` for the generated `uuid4`.  A rate-limited call and an opted-out
call both return `none` before touching any state; otherwise the
notification is appended to its priority queue, the rate-limit clock and
the created counter are updated, and the id is returned. -/
def createNotification (s : ServiceState) (now : Int) (nid : String)
    (user_id : String) (notification_type : NotificationType)
    (title message : String) (data : List (String × String))
    (priority : NotificationPriority) (expires_in : Option Int) :
    Option String × ServiceState :=
  if !(checkRateLimit s now user_id priority) then (none, s)
  else if !(shouldSendNotification s user_id notification_type) then (none, s)
  else
    let n : CulturalNotification :=
      { notification_id := nid
        user_id := user_id
        notification_type := notification_type
        priority := priority
        title := title
        message := message
        data := data
        created_at := now
        expires_at := expires_in.map (fun d => now + d) }
    let s1 := setQueue s priority (queueOf s priority ++ [n])
    let s2 := updateRateLimit s1 now user_id priority
    let s3 := { s2 with stats :=
      { s2.stats with notifications_created :=
          s2.stats.notifications_created + 1 } }
    (some nid, s3)

/-- Descending creation-time comparison used to sort
`get_user_notifications` output (`reverse=True`). -/
def createdDesc (a b : CulturalNotification) : Prop :=
  b.created_at ≤ a.created_at

instance : DecidableRel createdDesc := fun a b =>
  inferInstanceAs (Decidable (b.created_at ≤ a.created_at))

/-- Mirror of `get_user_notifications`: collect the matching notifications
from every priority queue in enum order, sort by creation time descending,
truncate to the limit. -/
def getUserNotifications (s : ServiceState) (user_id : String)
    (limit : Nat := 50) (unread_only : Bool := false) :
    List CulturalNotification :=
  let collected := priorityEnumOrder.flatMap (fun p =>
    (queueOf s p).filter (fun n =>
      n.user_id == user_id && (!unread_only || !n.read)))
  (collected.insertionSort createdDesc).take limit

/-- Mirror of one `_deliver_notification` call on a notification whose
broker publish always fails (`publish_notification` returns `False`), under
no expiry.  The returned boolean says whether the notification was put back
on its queue for another attempt. -/
def deliverNotificationFailing (now : Int) (n : CulturalNotification)
    (st : NotificationStats) :
    CulturalNotification × NotificationStats × Bool :=
  match n.expires_at with
  | some t =>
    if t < now then (n, st, false)
    else deliverNotificationFailingLive n st
  | none => deliverNotificationFailingLive n st
where
  /-- Body after the expiry guard: count the attempt, fail the publish,
  re-queue while attempts are below the maximum, otherwise count one
  failure. -/
  deliverNotificationFailingLive (n : CulturalNotification)
      (st : NotificationStats) :
      CulturalNotification × NotificationStats × Bool :=
    if n.max_delivery_attempts ≤ n.delivery_attempts then
      (n, { st with notifications_failed := st.notifications_failed + 1 },
        false)
    else
      let n1 := { n with delivery_attempts := n.delivery_attempts + 1 }
      let st1 := { st with delivery_attempts := st.delivery_attempts + 1 }
      if n1.delivery_attempts < n1.max_delivery_attempts then (n1, st1, true)
      else
        (n1,
          { st1 with notifications_failed := st1.notifications_failed + 1 },
          false)

/-- Repeated delivery of one always-failing notification by the delivery
loop: the notification is re-presented for delivery as long as the previous
attempt re-queued it.  `fuel` bounds the recursion; any amount at least the
attempt budget is enough. -/
def deliverFailingLoop (now : Int) : Nat → CulturalNotification →
    NotificationStats → CulturalNotification × NotificationStats
  | 0, n, st => (n, st)
  | fuel + 1, n, st =>
    let r := deliverNotificationFailing now n st
    if r.2.2 then deliverFailingLoop now fuel r.1 r.2.1 else (r.1, r.2.1)

/-- Search-and-mark of `mark_notification_read` inside one queue: set the
read flag of the first notification matching the user and id, and report
whether one was found. -/
def markFirstRead (user_id notification_id : String) :
    List CulturalNotification → Bool × List CulturalNotification
  | [] => (false, [])
  | n :: rest =>
    if n.user_id == user_id && n.notification_id == notification_id then
      (true, { n with read := true } :: rest)
    else
      let r := markFirstRead user_id notification_id rest
      (r.1, n :: r.2)

/-- Mirror of `mark_notification_read`: walk the queues in enum declaration
order, return `True` at the first matching notification after setting its
read flag, `False` when no queue holds a match; every other piece of state
is left as it was. -/
def markNotificationRead (s : ServiceState)
    (user_id notification_id : String) : Bool × ServiceState :=
  let rl := markFirstRead user_id notification_id s.queue_low
  if rl.1 then (true, { s with queue_low := rl.2 })
  else
    let rm := markFirstRead user_id notification_id s.queue_medium
    if rm.1 then (true, { s with queue_medium := rm.2 })
    else
      let rh := markFirstRead user_id notification_id s.queue_high
      if rh.1 then (true, { s with queue_high := rh.2 })
      else
        let ru := markFirstRead user_id notification_id s.queue_urgent
        if ru.1 then (true, { s with queue_urgent := ru.2 })
        else (false, s)

/-- Time of the last successfully created notification for a user and
priority, as `_check_rate_limit` reads it. -/
def lastTimeOf (s : ServiceState) (user_id : String)
    (priority : NotificationPriority) : Option Int :=
  (alistGet s.last_notification_time user_id).bind
    (fun times => alistGet times priority)

/-- Always-empty fresh service state. -/
def w6State : ServiceState := {}

/-- Service state where user-1 has opted out of trend alerts. -/
def w6OptOutState : ServiceState :=
  { user_preferences := [("user-1", [(NotificationType.trend_alert, false)])] }

/-- Freshly created notification whose delivery will always fail. -/
def w7Notification : CulturalNotification :=
  { notification_id := "n7"
    user_id := "user-1"
    notification_type := NotificationType.cultural_insight
    priority := NotificationPriority.medium
    title := "t"
    message := "m"
    created_at := 0 }

/-- Service state with one unread notification queued at medium priority. -/
def w10State : ServiceState := { queue_medium := [w7Notification] }

end NotificationModel

namespace CQRSModel

open EventStoreModel ProjectionModel NotificationModel

/-- Combined state seen by `CQRSMediator`: the event store table and the
`cultural_profiles` read-model table (keyed by user id) that
`GetCulturalProfileQueryHandler` reads. -/
structure CQRSState where
  store : Store
  profiles : List (String × CulturalProfile)
  deriving Repr, DecidableEq

/-- The `UpdateDiversityScoreCommand` fields the handler reads. -/
structure UpdateDiversityScoreCommand where
  user_id : String
  new_score : ℚ
  contributing_factors : List String := []
  deriving Repr, DecidableEq

/-- Mirror of `UpdateDiversityScoreCommandHandler._get_current_diversity_score`:
the profile row's score, `0.0` when the row is missing. -/
def getCurrentDiversityScore (s : CQRSState) (user_id : String) : ℚ :=
  ((alistGet s.profiles user_id).map (fun p => p.diversity_score)).getD 0

/-- Mirror of `UpdateDiversityScoreCommandHandler.handle`: read the current
score and version, then append a `DIVERSITY_SCORE_UPDATED` event at that
expected version.  `occurred_at`, `eid` and `corr` stand for the clock and
the generated uuids. -/
def handleUpdateDiversityScore (s : CQRSState)
    (cmd : UpdateDiversityScoreCommand) (occurred_at : Int)
    (eid corr : String) : Except ConcurrencyException CulturalEvent × CQRSState :=
  let current_score := getCurrentDiversityScore s cmd.user_id
  let current_version := getCurrentVersion s.store cmd.user_id
  let r : AppendRequest :=
    { aggregate_id := cmd.user_id
      event_type := diversityScoreUpdated
      event_data := { new_score := some cmd.new_score
                      old_score := some current_score }
      expected_version := current_version
      occurred_at := occurred_at
      event_id := eid
      correlation_id := some corr
      source_service := some "cultural_intelligence" }
  let res := appendEvent s.store r
  (res.1, { s with store := res.2 })

/-- Mirror of `EventDispatcher.dispatch` as far as the read models go.  The
dispatcher selects the event handlers of `event_handlers.py` whose
`can_handle` matches; every read-model update those handlers perform
(`_update_diversity_score_projection`, `_update_cultural_profile`,
`_update_evolution_timeline`, `_store_recommendation`, ...) has an empty
`pass` body, so dispatch changes neither the profiles table nor the store. -/
def dispatchEvent (s : CQRSState) (e : CulturalEvent) : CQRSState :=
  let _ := e
  s

/-- Mirror of `CQRSMediator.send_command` for the diversity score command:
run the handler, then dispatch the resulting event before returning; a
handler failure propagates without dispatch. -/
def sendCommandUpdateDiversityScore (s : CQRSState)
    (cmd : UpdateDiversityScoreCommand) (occurred_at : Int)
    (eid corr : String) : Except ConcurrencyException CulturalEvent × CQRSState :=
  let h := handleUpdateDiversityScore s cmd occurred_at eid corr
  match h.1 with
  | .ok e => (.ok e, dispatchEvent h.2 e)
  | .error err => (.error err, h.2)

/-- Mirror of `GetCulturalProfileQueryHandler.handle` restricted to the row
it returns: the profile row for the user, `None` when absent. -/
def sendQueryGetCulturalProfile (s : CQRSState) (user_id : String) :
    Option CulturalProfile :=
  alistGet s.profiles user_id

/-- Profile row of the sample user before the command, score 1/5. -/
def w8Profile : CulturalProfile :=
  { user_id := "user-1"
    diversity_score := 1 / 5
    evolution_patterns := []
    influence_network := {}
    blind_spots := []
    last_analysis := none }

/-- Mediator state with an empty log and the sample profile row. -/
def w8State : CQRSState :=
  { store := []
    profiles := [("user-1", w8Profile)] }

/-- Command raising the sample user's diversity score to 4/5. -/
def w8Cmd : UpdateDiversityScoreCommand :=
  { user_id := "user-1"
    new_score := 4 / 5 }

end CQRSModel

namespace EventStoreModel

/-- Statement of the per-aggregate version invariant: for every aggregate
the stored versions, in insertion order, are exactly `1..N` for `N` the
number of stored events of that aggregate. -/
def Gapless (store : Store) : Prop :=
  ∀ agg, versionsOf store agg = List.range' 1 (versionsOf store agg).length

/-- Input making the version check of C1 succeed on the empty store. -/
def w1ReqOk : AppendRequest :=
  { aggregate_id := "user-1"
    event_type := socialDataIngested
    event_data := {}
    expected_version := 0
    occurred_at := 100
    event_id := "evt-1" }

/-- Input making the version check of C1 fail on the empty store. -/
def w1ReqStale : AppendRequest :=
  { aggregate_id := "user-1"
    event_type := socialDataIngested
    event_data := {}
    expected_version := 5
    occurred_at := 100
    event_id := "evt-2" }

/-- The event `appendEvent [] w1ReqOk` stores. -/
def w2Event : CulturalEvent :=
  { event_id := "evt-1"
    aggregate_id := "user-1"
    event_type := socialDataIngested
    version := 1
    event_data := {}
    occurred_at := 100 }

/-- Second stored event of the sample aggregate. -/
def w9Event2 : CulturalEvent :=
  { event_id := "evt-2"
    aggregate_id := "user-1"
    event_type := diversityScoreUpdated
    version := 2
    event_data := { new_score := some (1 / 2) }
    occurred_at := 200 }

/-- Sample store holding the two events in reversed table order. -/
def w9Store : Store := [w9Event2, w2Event]

end EventStoreModel

namespace EventStoreModel

theorem foldr_max_shift (l : List Nat) (m : Nat) :
    l.foldr max m = max (l.foldr max 0) m := by
  induction l with
  | nil => simp
  | cons x l ih => simp only [List.foldr_cons, ih]; omega

theorem getCurrentVersion_eq_foldr (store : Store) (agg : String) :
    getCurrentVersion store agg = (versionsOf store agg).foldr max 0 := rfl

theorem versionsOf_append_same (store : Store) (e : CulturalEvent)
    (agg : String) (h : e.aggregate_id = agg) :
    versionsOf (store ++ [e]) agg = versionsOf store agg ++ [e.version] := by
  simp [versionsOf, List.filter_append, h]

theorem versionsOf_append_other (store : Store) (e : CulturalEvent)
    (agg : String) (h : ¬ e.aggregate_id = agg) :
    versionsOf (store ++ [e]) agg = versionsOf store agg := by
  simp [versionsOf, List.filter_append, h]

theorem foldr_max_range (n : Nat) : (List.range' 1 n).foldr max 0 = n := by
  induction n with
  | zero => rfl
  | succ n ih =>
    rw [List.range'_concat, List.foldr_append, List.foldr_cons,
      List.foldr_nil, foldr_max_shift, ih]
    omega

/-- C1: when `expected_version` equals the aggregate's current highest
version (0 when no events exist) the call succeeds and stores one event
with `version = expected_version + 1`; otherwise it fails with
`ConcurrencyException` and the store is untouched. -/
theorem append_event_concurrency_check (store : Store) (r : AppendRequest) :
    (getCurrentVersion store r.aggregate_id = r.expected_version →
      ∃ e, appendEvent store r = (.ok e, store ++ [e]) ∧
        e.version = r.expected_version + 1 ∧
        e.aggregate_id = r.aggregate_id ∧
        e.event_type = r.event_type ∧
        e.event_data = r.event_data ∧
        e.occurred_at = r.occurred_at)
    ∧ (getCurrentVersion store r.aggregate_id ≠ r.expected_version →
      (appendEvent store r).1 =
        .error (.conflict r.expected_version
          (getCurrentVersion store r.aggregate_id)) ∧
      (appendEvent store r).2 = store) := by
  constructor
  · intro h
    refine ⟨{ event_id := r.event_id
              aggregate_id := r.aggregate_id
              event_type := r.event_type
              version := r.expected_version + 1
              event_data := r.event_data
              occurred_at := r.occurred_at
              correlation_id := r.correlation_id
              causation_id := r.causation_id
              source_service := r.source_service },
      ?_, rfl, rfl, rfl, rfl, rfl⟩
    simp [appendEvent, h]
  · intro h
    constructor <;> simp [appendEvent, h]

/-- Witness for C1: both branches of the theorem at concrete inputs. -/
theorem append_event_concurrency_check_witness :
    (∃ e, appendEvent [] w1ReqOk = (.ok e, [] ++ [e]) ∧
      e.version = w1ReqOk.expected_version + 1 ∧
      e.aggregate_id = w1ReqOk.aggregate_id ∧
      e.event_type = w1ReqOk.event_type ∧
      e.event_data = w1ReqOk.event_data ∧
      e.occurred_at = w1ReqOk.occurred_at)
    ∧ ((appendEvent [] w1ReqStale).1 =
        .error (.conflict w1ReqStale.expected_version
          (getCurrentVersion [] w1ReqStale.aggregate_id)) ∧
      (appendEvent [] w1ReqStale).2 = []) :=
  ⟨(append_event_concurrency_check [] w1ReqOk).1 (by decide),
   (append_event_concurrency_check [] w1ReqStale).2 (by decide)⟩

theorem getCurrentVersion_of_gapless (store : Store) (agg : String)
    (h : Gapless store) :
    getCurrentVersion store agg = (versionsOf store agg).length := by
  have h2 := h agg
  rw [getCurrentVersion_eq_foldr]
  conv_lhs => rw [h2]
  exact foldr_max_range _

theorem appendEvent_snd_cases (store : Store) (r : AppendRequest) :
    (appendEvent store r).2 = store ∨
    (getCurrentVersion store r.aggregate_id = r.expected_version ∧
      (appendEvent store r).2 = store ++
        [{ event_id := r.event_id
           aggregate_id := r.aggregate_id
           event_type := r.event_type
           version := getCurrentVersion store r.aggregate_id + 1
           event_data := r.event_data
           occurred_at := r.occurred_at
           correlation_id := r.correlation_id
           causation_id := r.causation_id
           source_service := r.source_service }]) := by
  by_cases h : getCurrentVersion store r.aggregate_id = r.expected_version
  · right
    exact ⟨h, by simp [appendEvent, h]⟩
  · left
    simp [appendEvent, h]

theorem range_append_next (l : List Nat) (n : Nat)
    (hn : l = List.range' 1 n) : l ++ [n + 1] = List.range' 1 (n + 1) := by
  rw [hn, List.range'_concat]
  congr 2
  omega

theorem gapless_append (store : Store) (r : AppendRequest)
    (h : Gapless store) : Gapless (appendEvent store r).2 := by
  rcases appendEvent_snd_cases store r with hs | ⟨_, hs⟩
  · rw [hs]; exact h
  · intro agg
    by_cases ha : r.aggregate_id = agg
    · rw [hs, versionsOf_append_same _ _ _ ha]
      show versionsOf store agg ++ [getCurrentVersion store r.aggregate_id + 1]
        = List.range' 1
            ((versionsOf store agg ++
              [getCurrentVersion store r.aggregate_id + 1]).length)
      rw [getCurrentVersion_of_gapless store r.aggregate_id h, ha]
      rw [List.length_append, List.length_singleton]
      exact range_append_next _ _ (h agg)
    · rw [hs, versionsOf_append_other _ _ _ ha]
      exact h agg

theorem gapless_run (reqs : List AppendRequest) (s : Store)
    (h : Gapless s) :
    Gapless (reqs.foldl (fun st r => (appendEvent st r).2) s) := by
  induction reqs generalizing s with
  | nil => exact h
  | cons r rest ih => exact ih _ (gapless_append s r h)

theorem gapless_nil : Gapless ([] : Store) := by
  intro agg
  rfl

theorem appendEvent_ok (store : Store) (r : AppendRequest)
    (e : CulturalEvent) (hok : (appendEvent store r).1 = .ok e) :
    getCurrentVersion store r.aggregate_id = r.expected_version ∧
    (appendEvent store r).2 = store ++ [e] ∧
    e.aggregate_id = r.aggregate_id ∧
    e.version = r.expected_version + 1 := by
  by_cases h : getCurrentVersion store r.aggregate_id = r.expected_version
  · have hval : (appendEvent store r).1 =
        .ok { event_id := r.event_id
              aggregate_id := r.aggregate_id
              event_type := r.event_type
              version := r.expected_version + 1
              event_data := r.event_data
              occurred_at := r.occurred_at
              correlation_id := r.correlation_id
              causation_id := r.causation_id
              source_service := r.source_service } := by
      simp [appendEvent, h]
    rw [hval] at hok
    injection hok with hrec
    subst hrec
    exact ⟨h, by simp [appendEvent, h], rfl, rfl⟩
  · exfalso
    simp [appendEvent, h] at hok

theorem getCurrentVersion_append (store : Store) (e : CulturalEvent)
    (agg : String) :
    getCurrentVersion (store ++ [e]) agg =
      if e.aggregate_id = agg then max (getCurrentVersion store agg) e.version
      else getCurrentVersion store agg := by
  by_cases h : e.aggregate_id = agg
  · rw [if_pos h, getCurrentVersion_eq_foldr, versionsOf_append_same _ _ _ h,
      List.foldr_append, List.foldr_cons, List.foldr_nil, foldr_max_shift,
      getCurrentVersion_eq_foldr]
    omega
  · rw [if_neg h, getCurrentVersion_eq_foldr, versionsOf_append_other _ _ _ h,
      getCurrentVersion_eq_foldr]

/-- C2: starting from the empty store, any sequence of `append_event` calls
(successful or failed) leaves every aggregate with versions exactly
`1..N`, contiguous, strictly increasing and unique; and of two appends at
the same expected version for the same aggregate, the second one cannot
succeed once the first one has. -/
theorem versions_gapless_single_winner :
    (∀ (reqs : List AppendRequest) (agg : String),
      versionsOf (runAppends reqs) agg =
        List.range' 1 (versionsOf (runAppends reqs) agg).length)
    ∧ (∀ (store : Store) (r1 r2 : AppendRequest) (e : CulturalEvent),
        r1.aggregate_id = r2.aggregate_id →
        r1.expected_version = r2.expected_version →
        (appendEvent store r1).1 = .ok e →
        ∀ e2, (appendEvent (appendEvent store r1).2 r2).1 ≠ .ok e2) := by
  constructor
  · intro reqs agg
    exact gapless_run reqs [] gapless_nil agg
  · intro store r1 r2 e hagg hexp hok e2 hok2
    obtain ⟨hv, hsnd, hea, hev⟩ := appendEvent_ok store r1 e hok
    rw [hsnd] at hok2
    obtain ⟨hv2, _, _, _⟩ := appendEvent_ok _ r2 e2 hok2
    rw [getCurrentVersion_append] at hv2
    rw [if_pos (by rw [hea, hagg])] at hv2
    rw [← hagg] at hv2
    rw [hv, hev] at hv2
    omega

/-- Witness for C2: the invariant after two concrete calls (one success,
one stale failure), and the failure of a conflicting retry of the same
request. -/
theorem versions_gapless_single_winner_witness :
    (versionsOf (runAppends [w1ReqOk, w1ReqStale]) "user-1" =
      List.range' 1
        (versionsOf (runAppends [w1ReqOk, w1ReqStale]) "user-1").length)
    ∧ (appendEvent (appendEvent [] w1ReqOk).2 w1ReqOk).1 ≠ .ok w2Event :=
  ⟨versions_gapless_single_winner.1 [w1ReqOk, w1ReqStale] "user-1",
   versions_gapless_single_winner.2 [] w1ReqOk w1ReqOk w2Event rfl rfl
     rfl w2Event⟩

theorem mem_getEvents (store : Store) (agg : String) (f : Nat)
    (t : Option Nat) (e : CulturalEvent) :
    e ∈ getEvents store agg f t ↔
      e ∈ store ∧ e.aggregate_id = agg ∧ f < e.version ∧
        ∀ tv ∈ t, e.version ≤ tv := by
  unfold getEvents
  cases t with
  | none => simp [List.mem_filter, and_assoc]
  | some tv =>
    simp [List.mem_filter, and_assoc]
    tauto

/-- C9: `get_events` returns exactly the stored events of the aggregate
whose version is strictly above `from_version` and, when given, at most
`to_version`, sorted by ascending version; with the defaults the whole
history from version 1 is returned. -/
theorem get_events_window (store : Store) (agg : String) (f : Nat)
    (t : Option Nat) :
    (∀ e, e ∈ getEvents store agg f t ↔
      e ∈ store ∧ e.aggregate_id = agg ∧ f < e.version ∧
        ∀ tv ∈ t, e.version ≤ tv)
    ∧ (getEvents store agg f t).Sorted versionLE
    ∧ ((∀ e ∈ store, 1 ≤ e.version) →
        ∀ e, e ∈ getEvents store agg 0 none ↔
          e ∈ store ∧ e.aggregate_id = agg) := by
  refine ⟨fun e => mem_getEvents store agg f t e,
    List.sorted_insertionSort versionLE _, ?_⟩
  intro hpos e
  rw [mem_getEvents]
  constructor
  · exact fun h => ⟨h.1, h.2.1⟩
  · intro h
    exact ⟨h.1, h.2, hpos e h.1, by simp⟩

/-- Witness for C9: the characterizations and the sortedness at a concrete
two-event store held in reversed order. -/
theorem get_events_window_witness :
    (w2Event ∈ getEvents w9Store "user-1" 1 (some 2) ↔
      w2Event ∈ w9Store ∧ w2Event.aggregate_id = "user-1" ∧
        1 < w2Event.version ∧
        ∀ tv ∈ (some 2 : Option Nat), w2Event.version ≤ tv)
    ∧ (getEvents w9Store "user-1" 1 (some 2)).Sorted versionLE
    ∧ (w2Event ∈ getEvents w9Store "user-1" 0 none ↔
        w2Event ∈ w9Store ∧ w2Event.aggregate_id = "user-1") :=
  ⟨(get_events_window w9Store "user-1" 1 (some 2)).1 w2Event,
   (get_events_window w9Store "user-1" 1 (some 2)).2.1,
   (get_events_window w9Store "user-1" 0 none).2.2 (by decide) w2Event⟩

theorem eq_of_perm_sorted_strict (h : List CulturalEvent) :
    ∀ l : List CulturalEvent, l.Perm h → l.Sorted versionLE →
      h.Pairwise (fun a b => a.version < b.version) → l = h := by
  induction h with
  | nil =>
    intro l hp _ _
    exact hp.eq_nil
  | cons b t ih =>
    intro l hp hs hh
    cases l with
    | nil => exact absurd hp.symm.eq_nil (List.cons_ne_nil b t)
    | cons a l2 =>
      have hab : a = b := by
        by_contra hne
        have ha_t : a ∈ t := by
          cases List.mem_cons.mp (hp.mem_iff.mp (List.mem_cons_self a l2)) with
          | inl h1 => exact absurd h1 hne
          | inr h2 => exact h2
        have hb_l : b ∈ l2 := by
          cases List.mem_cons.mp (hp.mem_iff.mpr (List.mem_cons_self b t)) with
          | inl h1 => exact absurd h1.symm hne
          | inr h2 => exact h2
        have h1 : b.version < a.version := (List.pairwise_cons.mp hh).1 a ha_t
        have h2 : a.version ≤ b.version := (List.pairwise_cons.mp hs).1 b hb_l
        omega
      subst hab
      rw [ih l2 hp.cons_inv hs.of_cons hh.of_cons]

end EventStoreModel

namespace ProjectionModel

open EventStoreModel

/-- C3: rebuilding the cultural profile projection from the full event
history of an aggregate equals folding `project_event` over that history,
in version order, from the initial empty read model, whatever row existed
before the rebuild. -/
theorem rebuild_eq_incremental_fold (store : Store) (agg : String)
    (pre : Option CulturalProfile) (history : List CulturalEvent)
    (hperm : (store.filter (fun e => e.aggregate_id == agg)).Perm history)
    (hpos : ∀ e ∈ history, 1 ≤ e.version)
    (hstrict : history.Pairwise (fun a b => a.version < b.version)) :
    rebuildProjection store agg pre = history.foldl projectEvent none := by
  have hev : getEvents store agg 0 none = history := by
    unfold getEvents
    have hfeq : store.filter (fun (e : CulturalEvent) =>
        e.aggregate_id == agg && decide (0 < e.version)) =
        store.filter (fun e => e.aggregate_id == agg) := by
      apply List.filter_congr
      intro e he
      by_cases hagg : (e.aggregate_id == agg) = true
      · have hmem : e ∈ store.filter (fun e => e.aggregate_id == agg) :=
          List.mem_filter.mpr ⟨he, hagg⟩
        have hver := hpos e (hperm.mem_iff.mp hmem)
        simp only [hagg, Bool.true_and, decide_eq_true_eq]
        omega
      · have hf : (e.aggregate_id == agg) = false :=
          Bool.eq_false_iff.mpr hagg
        simp [hf]
    rw [hfeq]
    exact eq_of_perm_sorted_strict history _
      ((List.perm_insertionSort versionLE _).trans hperm)
      (List.sorted_insertionSort versionLE _) hstrict
  unfold rebuildProjection
  rw [hev]

/-- Witness for C3: the rebuild at a concrete two-event store held in
reversed table order, with a stale profile row in place before the call. -/
theorem rebuild_eq_incremental_fold_witness :
    rebuildProjection w9Store "user-1" (some (newProfile "stale")) =
      [w2Event, w9Event2].foldl projectEvent none :=
  rebuild_eq_incremental_fold w9Store "user-1" (some (newProfile "stale"))
    [w2Event, w9Event2]
    (by
      have hf : List.filter
          (fun (e : CulturalEvent) => e.aggregate_id == "user-1") w9Store =
          [w9Event2, w2Event] := rfl
      rw [hf]
      exact List.Perm.swap w2Event w9Event2 [])
    (by decide) (by decide)

end ProjectionModel

namespace StreamModel

theorem mem_windowKeys_core (l : List Nat) (acc : List Nat) (k : Nat) :
    k ∈ l.foldl (fun a x => if x ∈ a then a else a ++ [x]) acc ↔
      k ∈ acc ∨ k ∈ l := by
  induction l generalizing acc with
  | nil => simp
  | cons x l ih =>
    simp only [List.foldl_cons]
    rw [ih]
    by_cases hx : x ∈ acc
    · simp only [if_pos hx, List.mem_cons]
      constructor
      · rintro (h | h)
        · exact Or.inl h
        · exact Or.inr (Or.inr h)
      · rintro (h | h | h)
        · exact Or.inl h
        · exact Or.inl (h ▸ hx)
        · exact Or.inr h
    · simp only [if_neg hx, List.mem_append, List.mem_singleton,
        List.mem_cons]
      tauto

theorem mem_windowKeys (l : List Nat) (k : Nat) :
    k ∈ windowKeys l ↔ k ∈ l := by
  unfold windowKeys
  rw [mem_windowKeys_core]
  simp

theorem windowKeys_core_const (l : List Nat) (w : Nat)
    (hall : ∀ k ∈ l, k = w) :
    l.foldl (fun a x => if x ∈ a then a else a ++ [x]) [w] = [w] := by
  induction l with
  | nil => rfl
  | cons y l ih =>
    have hy : y = w := hall y (List.mem_cons_self y l)
    simp only [List.foldl_cons, hy, if_pos (List.mem_singleton_self w)]
    exact ih (fun k hk => hall k (List.mem_cons_of_mem y hk))

theorem windowKeys_const (l : List Nat) (w : Nat) (hne : l ≠ [])
    (hall : ∀ k ∈ l, k = w) : windowKeys l = [w] := by
  cases l with
  | nil => exact absurd rfl hne
  | cons x l =>
    have hx : x = w := hall x (List.mem_cons_self x l)
    unfold windowKeys
    simp only [List.foldl_cons, if_neg (List.not_mem_nil x),
      List.nil_append, hx]
    exact windowKeys_core_const l w
      (fun k hk => hall k (List.mem_cons_of_mem x hk))

theorem dedup_length_le_one (l : List String) (pl : String)
    (hall : ∀ x ∈ l, x = pl) : l.dedup.length ≤ 1 := by
  have hd : ∀ x ∈ l.dedup, x = pl :=
    fun x hx => hall x (List.mem_dedup.mp hx)
  have hnd := l.nodup_dedup
  cases hdl : l.dedup with
  | nil => simp
  | cons a t =>
    cases t with
    | nil => simp
    | cons b t2 =>
      exfalso
      rw [hdl] at hd hnd
      have ha : a = pl := hd a (by simp)
      have hb : b = pl := hd b (by simp)
      exact (List.nodup_cons.mp hnd).1 (by simp [ha, hb])

/-- C4: events from 3 distinct platforms inside one 5-minute slice make the
cross-platform detector emit exactly one pattern, with confidence at or
above the threshold; events from a single platform emit none; and any
slice among the recent events spanning at least 2 distinct platforms with
correlation strength at or above the threshold emits a pattern for that
slice. -/
theorem cross_platform_correlation_detector (now : Int) (uid : String)
    (events : List StreamEvent) :
    (∀ w : Nat, events ≠ [] → events.length ≤ 20 →
      (∀ e ∈ events, sliceKey e = w) →
      ((events.map (fun e => e.platform)).dedup.length = 3) →
      ∃ p, detectCrossPlatformCorrelation now uid events = [p] ∧
        crossPlatformThreshold ≤ p.confidence)
    ∧ (∀ pl : String, (∀ e ∈ events, e.platform = pl) →
      detectCrossPlatformCorrelation now uid events = [])
    ∧ (∀ w : Nat, events.length ≤ 20 →
      (∃ e ∈ events, sliceKey e = w) →
      2 ≤ ((events.filter (fun e => sliceKey e == w)).map
        (fun e => e.platform)).dedup.length →
      crossPlatformThreshold ≤
        min ((((events.filter (fun e => sliceKey e == w)).map
          (fun e => e.platform)).dedup.length : ℚ) / 3) 1 →
      ∃ p ∈ detectCrossPlatformCorrelation now uid events,
        p.window_key = w ∧ crossPlatformThreshold ≤ p.confidence) := by
  refine ⟨?_, ?_, ?_⟩
  · intro w hne hlen hall hplat
    have hdrop : events.drop (events.length - 20) = events := by
      rw [Nat.sub_eq_zero_of_le hlen, List.drop_zero]
    have hwin : events.filter (fun e => sliceKey e == w) = events :=
      List.filter_eq_self.mpr (fun e he => by simp [hall e he])
    have hkeys : windowKeys (events.map sliceKey) = [w] := by
      refine windowKeys_const _ w ?_ ?_
      · simpa using hne
      · intro k hk
        obtain ⟨e, he, rfl⟩ := List.mem_map.mp hk
        exact hall e he
    have hth : crossPlatformThreshold ≤
        min (((events.map (fun e => e.platform)).dedup.length : ℚ) / 3) 1 := by
      rw [hplat]
      norm_num [crossPlatformThreshold]
    have hsp : ∃ rec, slicePattern now uid events w = some rec ∧
        crossPlatformThreshold ≤ rec.confidence := by
      simp only [slicePattern, hwin]
      rw [if_pos (by rw [hplat]; norm_num), if_pos hth]
      exact ⟨_, rfl, hth⟩
    obtain ⟨rec, hrec, hconf⟩ := hsp
    refine ⟨rec, ?_, hconf⟩
    simp only [detectCrossPlatformCorrelation]
    rw [hdrop, hkeys]
    simp [List.filterMap_cons, hrec]
  · intro pl hall
    simp only [detectCrossPlatformCorrelation]
    refine List.filterMap_eq_nil_iff.mpr ?_
    intro k _
    simp only [slicePattern]
    have hsub : ∀ x ∈ ((events.drop (events.length - 20)).filter
        (fun e => sliceKey e == k)).map (fun e => e.platform), x = pl := by
      intro x hx
      obtain ⟨e, he, rfl⟩ := List.mem_map.mp hx
      exact hall e (List.mem_of_mem_drop (List.mem_filter.mp he).1)
    have hle := dedup_length_le_one _ pl hsub
    rw [if_neg (by omega)]
  · intro w hlen hex h2 hth
    have hdrop : events.drop (events.length - 20) = events := by
      rw [Nat.sub_eq_zero_of_le hlen, List.drop_zero]
    have hw : w ∈ windowKeys (events.map sliceKey) := by
      rw [mem_windowKeys]
      obtain ⟨e, he, hk⟩ := hex
      exact List.mem_map.mpr ⟨e, he, hk⟩
    have hsp : ∃ rec, slicePattern now uid events w = some rec ∧
        rec.window_key = w ∧ crossPlatformThreshold ≤ rec.confidence := by
      simp only [slicePattern]
      rw [if_pos h2, if_pos hth]
      exact ⟨_, rfl, rfl, hth⟩
    obtain ⟨rec, h1, hkey, hconf⟩ := hsp
    refine ⟨rec, ?_, hkey, hconf⟩
    simp only [detectCrossPlatformCorrelation]
    rw [hdrop]
    exact List.mem_filterMap.mpr ⟨w, hw, h1⟩

/-- Witness for C4: all three parts at concrete synthetic events (slice 0,
platforms spotify, instagram and tiktok). -/
theorem cross_platform_correlation_detector_witness :
    (∃ p, detectCrossPlatformCorrelation 0 "user-1" w4Events = [p] ∧
      crossPlatformThreshold ≤ p.confidence)
    ∧ detectCrossPlatformCorrelation 0 "user-1" [w4Spotify] = []
    ∧ (∃ p ∈ detectCrossPlatformCorrelation 0 "user-1" w4Events,
        p.window_key = 0 ∧ crossPlatformThreshold ≤ p.confidence) :=
  ⟨(cross_platform_correlation_detector 0 "user-1" w4Events).1 0
      (by decide) (by decide) (by decide) (by decide),
   (cross_platform_correlation_detector 0 "user-1" [w4Spotify]).2.1
      "spotify" (by decide),
   (cross_platform_correlation_detector 0 "user-1" w4Events).2.2 0
      (by decide) ⟨w4Spotify, by decide, by decide⟩ (by decide)
      (by
        have h3 : ((w4Events.filter (fun e => sliceKey e == 0)).map
            (fun e => e.platform)).dedup.length = 3 := by decide
        rw [h3]
        norm_num [crossPlatformThreshold])⟩

/-- C5 counterexample: on an event with 11 distinct categories and one
platform the score of the code differs from the score with each component
clipped to the unit interval before averaging, as the claim states it. -/
theorem diversity_score_counterexample :
    calculateDiversityScore [w5Event] ≠ specDiversityScore [w5Event] := by
  have hc : ([w5Event].flatMap
      (fun e => e.cultural_categories)).dedup.length = 11 := by decide
  have hp : ([w5Event].map (fun e => e.platform)).dedup.length = 1 := by
    decide
  have h1 : calculateDiversityScore [w5Event] = 43 / 60 := by
    simp only [calculateDiversityScore]
    rw [if_neg (by simp), hc, hp]
    rw [min_def]
    norm_num
  have h2 : specDiversityScore [w5Event] = 2 / 3 := by
    simp only [specDiversityScore]
    rw [if_neg (by simp), hc, hp]
    norm_num [clip01, min_def, max_def]
  rw [h1, h2]
  norm_num

/-- C5 amended: the diversity score is the average of (distinct-category
count / 10) and (distinct-platform count / 3) with the AVERAGE, not each
component, clipped from above at 1; the empty list yields 0.  The score
always lies in the unit interval. -/
theorem diversity_score_spec (events : List StreamEvent) :
    calculateDiversityScore events =
      (if events = [] then 0
       else
        min ((((events.flatMap
            (fun e => e.cultural_categories)).toFinset.card : ℚ) / 10 +
          ((events.map (fun e => e.platform)).toFinset.card : ℚ) / 3) / 2) 1)
    ∧ 0 ≤ calculateDiversityScore events
    ∧ calculateDiversityScore events ≤ 1 := by
  refine ⟨?_, ?_, ?_⟩
  · unfold calculateDiversityScore
    by_cases h : events = []
    · simp [h]
    · rw [if_neg h, if_neg h]
      simp [List.card_toFinset]
  · unfold calculateDiversityScore
    by_cases h : events = []
    · simp [h]
    · rw [if_neg h]
      refine le_min ?_ ?_
      · positivity
      · norm_num
  · unfold calculateDiversityScore
    by_cases h : events = []
    · simp [h]
    · rw [if_neg h]
      exact min_le_right _ _

end StreamModel

namespace NotificationModel

theorem alistGet_set_self {α β : Type} [BEq α] [LawfulBEq α]
    (l : List (α × β)) (k : α) (v : β) :
    alistGet (alistSet l k v) k = some v := by
  induction l with
  | nil => simp [alistSet, alistGet]
  | cons kv rest ih =>
    by_cases h : kv.1 == k
    · simp [alistSet, alistGet, h]
    · simp [alistSet, alistGet, h, ih]

theorem setQueue_lnt (s : ServiceState) (p : NotificationPriority)
    (q : List CulturalNotification) :
    (setQueue s p q).last_notification_time = s.last_notification_time := by
  cases p <;> rfl

theorem createNotification_success_state (s : ServiceState) (now : Int)
    (nid u : String) (ty : NotificationType) (ti m : String)
    (d : List (String × String)) (p : NotificationPriority)
    (e : Option Int) (rid : String)
    (h : (createNotification s now nid u ty ti m d p e).1 = some rid) :
    lastTimeOf (createNotification s now nid u ty ti m d p e).2 u p =
      some now := by
  by_cases h1 : checkRateLimit s now u p
  · by_cases h2 : shouldSendNotification s u ty
    · simp only [createNotification, h1, h2, Bool.not_true, Bool.false_eq_true,
        if_false]
      simp [lastTimeOf, updateRateLimit, setQueue_lnt, alistGet_set_self]
    · exfalso
      simp [createNotification, h1, h2] at h
  · exfalso
    simp [createNotification, h1] at h

theorem createNotification_rate_limited (s : ServiceState) (now : Int)
    (u : String) (p : NotificationPriority) (t1 : Int)
    (hlast : lastTimeOf s u p = some t1) (hcd : now - t1 < rateLimit p)
    (nid : String) (ty : NotificationType) (ti m : String)
    (d : List (String × String)) (e : Option Int) :
    createNotification s now nid u ty ti m d p e = (none, s) := by
  have hb : checkRateLimit s now u p = false := by
    unfold checkRateLimit
    unfold lastTimeOf at hlast
    cases hu : alistGet s.last_notification_time u with
    | none => rw [hu] at hlast; simp at hlast
    | some times =>
      rw [hu] at hlast
      simp only [Option.some_bind] at hlast
      simp only [hlast, decide_eq_false_iff_not]
      omega
  simp [createNotification, hb]

theorem createNotification_opted_out (s : ServiceState) (now : Int)
    (nid u : String) (ty : NotificationType) (ti m : String)
    (d : List (String × String)) (p : NotificationPriority) (e : Option Int)
    (h : shouldSendNotification s u ty = false) :
    createNotification s now nid u ty ti m d p e = (none, s) := by
  by_cases h1 : checkRateLimit s now u p
  · simp [createNotification, h1, h]
  · simp [createNotification, h1]

/-- C6: a second `create_notification` call for the same subscriber and
priority issued before the priority cool-down has elapsed since the first
successful creation returns no id and changes nothing, so the suppressed
notification never shows up in `get_user_notifications`; a call for a
notification type the subscriber opted out of is likewise suppressed. -/
theorem create_notification_suppression :
    (∀ (s : ServiceState) (t1 t2 : Int) (rid nid1 nid2 u : String)
        (ty1 ty2 : NotificationType) (ti1 m1 ti2 m2 : String)
        (d1 d2 : List (String × String)) (p : NotificationPriority)
        (e1 e2 : Option Int) (lim : Nat) (uo : Bool),
      (createNotification s t1 nid1 u ty1 ti1 m1 d1 p e1).1 = some rid →
      t2 - t1 < rateLimit p →
      createNotification
          (createNotification s t1 nid1 u ty1 ti1 m1 d1 p e1).2
          t2 nid2 u ty2 ti2 m2 d2 p e2 =
        (none, (createNotification s t1 nid1 u ty1 ti1 m1 d1 p e1).2) ∧
      getUserNotifications
          (createNotification
            (createNotification s t1 nid1 u ty1 ti1 m1 d1 p e1).2
            t2 nid2 u ty2 ti2 m2 d2 p e2).2 u lim uo =
        getUserNotifications
          (createNotification s t1 nid1 u ty1 ti1 m1 d1 p e1).2 u lim uo)
    ∧ (∀ (s : ServiceState) (now : Int) (nid u : String)
        (ty : NotificationType) (ti m : String)
        (d : List (String × String)) (p : NotificationPriority)
        (e : Option Int),
        shouldSendNotification s u ty = false →
        createNotification s now nid u ty ti m d p e = (none, s)) := by
  constructor
  · intro s t1 t2 rid nid1 nid2 u ty1 ty2 ti1 m1 ti2 m2 d1 d2 p e1 e2 lim uo
      hok hcd
    have hl := createNotification_success_state s t1 nid1 u ty1 ti1 m1 d1
      p e1 rid hok
    have h2 := createNotification_rate_limited _ t2 u p t1 hl hcd nid2 ty2
      ti2 m2 d2 e2
    exact ⟨h2, by rw [h2]⟩
  · intro s now nid u ty ti m d p e h
    exact createNotification_opted_out s now nid u ty ti m d p e h

/-- Witness for C6: a concrete pair of medium-priority calls 500 s apart
(cool-down 900 s), and an opted-out trend alert. -/
theorem create_notification_suppression_witness :
    (createNotification
        (createNotification w6State 1000 "n1" "user-1"
          NotificationType.cultural_insight "t" "m" []
          NotificationPriority.medium (some 86400)).2
        1500 "n2" "user-1" NotificationType.cultural_insight "t" "m" []
        NotificationPriority.medium (some 86400) =
      (none, (createNotification w6State 1000 "n1" "user-1"
        NotificationType.cultural_insight "t" "m" []
        NotificationPriority.medium (some 86400)).2) ∧
      getUserNotifications
        (createNotification
          (createNotification w6State 1000 "n1" "user-1"
            NotificationType.cultural_insight "t" "m" []
            NotificationPriority.medium (some 86400)).2
          1500 "n2" "user-1" NotificationType.cultural_insight "t" "m" []
          NotificationPriority.medium (some 86400)).2 "user-1" 50 false =
      getUserNotifications
        (createNotification w6State 1000 "n1" "user-1"
          NotificationType.cultural_insight "t" "m" []
          NotificationPriority.medium (some 86400)).2 "user-1" 50 false)
    ∧ createNotification w6OptOutState 2000 "n3" "user-1"
        NotificationType.trend_alert "t" "m" [] NotificationPriority.high
        none = (none, w6OptOutState) :=
  ⟨create_notification_suppression.1 w6State 1000 1500 "n1" "n1" "n2"
      "user-1" NotificationType.cultural_insight
      NotificationType.cultural_insight "t" "m" "t" "m" [] []
      NotificationPriority.medium (some 86400) (some 86400) 50 false
      rfl (by decide),
   create_notification_suppression.2 w6OptOutState 2000 "n3" "user-1"
      NotificationType.trend_alert "t" "m" [] NotificationPriority.high
      none rfl⟩

theorem deliverFailingLoop_spec (now : Int) :
    ∀ (fuel : Nat) (n : CulturalNotification) (st : NotificationStats),
      n.expires_at = none →
      n.delivery_attempts < n.max_delivery_attempts →
      n.max_delivery_attempts - n.delivery_attempts ≤ fuel →
      (deliverFailingLoop now fuel n st).1.delivery_attempts =
        n.max_delivery_attempts ∧
      (deliverFailingLoop now fuel n st).1.delivered = n.delivered ∧
      (deliverFailingLoop now fuel n st).1.max_delivery_attempts =
        n.max_delivery_attempts ∧
      (deliverFailingLoop now fuel n st).1.expires_at = none ∧
      (deliverFailingLoop now fuel n st).2.notifications_failed =
        st.notifications_failed + 1 ∧
      (deliverFailingLoop now fuel n st).2.delivery_attempts =
        st.delivery_attempts +
          (n.max_delivery_attempts - n.delivery_attempts) := by
  intro fuel
  induction fuel with
  | zero =>
    intro n st _ hlt hfuel
    omega
  | succ fuel ih =>
    intro n st hexp hlt hfuel
    have hstep : deliverNotificationFailing now n st =
        (if n.delivery_attempts + 1 < n.max_delivery_attempts then
          ({ n with delivery_attempts := n.delivery_attempts + 1 },
           { st with delivery_attempts := st.delivery_attempts + 1 }, true)
         else
          ({ n with delivery_attempts := n.delivery_attempts + 1 },
           { st with
               delivery_attempts := st.delivery_attempts + 1
               notifications_failed := st.notifications_failed + 1 },
           false)) := by
      simp only [deliverNotificationFailing, hexp]
      unfold deliverNotificationFailing.deliverNotificationFailingLive
      rw [if_neg (show ¬ n.max_delivery_attempts ≤ n.delivery_attempts by
        omega)]
      rw [hexp]
    by_cases hc : n.delivery_attempts + 1 < n.max_delivery_attempts
    · have hl : deliverFailingLoop now (fuel + 1) n st =
          deliverFailingLoop now fuel
            { n with delivery_attempts := n.delivery_attempts + 1 }
            { st with delivery_attempts := st.delivery_attempts + 1 } := by
        simp only [deliverFailingLoop, hstep, hc, if_true]
      obtain ⟨a1, a2, a3, a4, a5, a6⟩ := ih
        { n with delivery_attempts := n.delivery_attempts + 1 }
        { st with delivery_attempts := st.delivery_attempts + 1 }
        hexp hc
        (by show n.max_delivery_attempts - (n.delivery_attempts + 1) ≤ fuel
            omega)
      rw [hl]
      have a6n : (deliverFailingLoop now fuel
          { n with delivery_attempts := n.delivery_attempts + 1 }
          { st with delivery_attempts :=
              st.delivery_attempts + 1 }).2.delivery_attempts =
          st.delivery_attempts + 1 +
            (n.max_delivery_attempts - (n.delivery_attempts + 1)) := a6
      exact ⟨a1, a2, a3, a4, a5, by omega⟩
    · have hl : deliverFailingLoop now (fuel + 1) n st =
          ({ n with delivery_attempts := n.delivery_attempts + 1 },
           { st with
               delivery_attempts := st.delivery_attempts + 1
               notifications_failed := st.notifications_failed + 1 }) := by
        simp only [deliverFailingLoop, hstep, if_neg hc, Bool.false_eq_true,
          if_false]
      rw [hl]
      refine ⟨by show n.delivery_attempts + 1 = _; omega, rfl, rfl, hexp,
        rfl, by show st.delivery_attempts + 1 = _; omega⟩

/-- C7: a notification whose broker publish fails on every attempt is
presented for delivery until the attempt counter reaches exactly
`max_delivery_attempts`; at that point the failure statistic is bumped
exactly once, the delivered flag is still clear, and a further
presentation neither changes the notification nor re-queues it. -/
theorem failing_delivery_bounded_retries (now t2 : Int) (fuel : Nat)
    (n : CulturalNotification) (st st2 : NotificationStats)
    (hexp : n.expires_at = none) (hnew : n.delivery_attempts = 0)
    (hdel : n.delivered = false) (hmax : 1 ≤ n.max_delivery_attempts)
    (hfuel : n.max_delivery_attempts ≤ fuel) :
    (deliverFailingLoop now fuel n st).1.delivery_attempts =
      n.max_delivery_attempts ∧
    (deliverFailingLoop now fuel n st).2.delivery_attempts =
      st.delivery_attempts + n.max_delivery_attempts ∧
    (deliverFailingLoop now fuel n st).2.notifications_failed =
      st.notifications_failed + 1 ∧
    (deliverFailingLoop now fuel n st).1.delivered = false ∧
    (deliverNotificationFailing t2
      (deliverFailingLoop now fuel n st).1 st2).2.2 = false ∧
    (deliverNotificationFailing t2
      (deliverFailingLoop now fuel n st).1 st2).1 =
      (deliverFailingLoop now fuel n st).1 := by
  obtain ⟨a1, a2, a3, a4, a5, a6⟩ :=
    deliverFailingLoop_spec now fuel n st hexp (by omega) (by omega)
  have hfin : deliverNotificationFailing t2
      (deliverFailingLoop now fuel n st).1 st2 =
      ((deliverFailingLoop now fuel n st).1,
       { st2 with notifications_failed := st2.notifications_failed + 1 },
       false) := by
    unfold deliverNotificationFailing
    rw [a4]
    unfold deliverNotificationFailing.deliverNotificationFailingLive
    rw [if_pos (by omega)]
  refine ⟨a1, by omega, a5, by rw [a2, hdel], by rw [hfin], by rw [hfin]⟩

/-- Witness for C7: the failing delivery of a fresh concrete notification
with the default attempt budget of 3, run with fuel 5. -/
theorem failing_delivery_bounded_retries_witness :
    (deliverFailingLoop 0 5 w7Notification {}).1.delivery_attempts =
      w7Notification.max_delivery_attempts ∧
    (deliverFailingLoop 0 5 w7Notification {}).2.delivery_attempts =
      NotificationStats.delivery_attempts {} +
        w7Notification.max_delivery_attempts ∧
    (deliverFailingLoop 0 5 w7Notification {}).2.notifications_failed =
      NotificationStats.notifications_failed {} + 1 ∧
    (deliverFailingLoop 0 5 w7Notification {}).1.delivered = false ∧
    (deliverNotificationFailing 7
      (deliverFailingLoop 0 5 w7Notification {}).1 {}).2.2 = false ∧
    (deliverNotificationFailing 7
      (deliverFailingLoop 0 5 w7Notification {}).1 {}).1 =
      (deliverFailingLoop 0 5 w7Notification {}).1 :=
  failing_delivery_bounded_retries 0 7 5 w7Notification {} {} rfl rfl rfl
    (by decide) (by decide)

theorem markFirstRead_false (u nid : String)
    (l : List CulturalNotification) :
    (markFirstRead u nid l).1 = false →
      (markFirstRead u nid l).2 = l ∧
      ∀ n ∈ l, ¬(n.user_id = u ∧ n.notification_id = nid) := by
  induction l with
  | nil => intro _; exact ⟨rfl, by simp⟩
  | cons n rest ih =>
    intro h
    by_cases hm : (n.user_id == u && n.notification_id == nid) = true
    · exfalso
      simp only [markFirstRead, if_pos hm] at h
      exact Bool.true_eq_false.mp h
    · have hstep : markFirstRead u nid (n :: rest) =
          ((markFirstRead u nid rest).1,
           n :: (markFirstRead u nid rest).2) := by
        simp only [markFirstRead]
        rw [if_neg hm]
      rw [hstep] at h
      obtain ⟨ha, hb⟩ := ih h
      rw [Bool.and_eq_true, beq_iff_eq, beq_iff_eq] at hm
      refine ⟨by rw [hstep, ha], ?_⟩
      intro m hmem
      rcases List.mem_cons.mp hmem with hmn | hmr
      · rw [hmn]; exact hm
      · exact hb m hmr

theorem markFirstRead_true (u nid : String)
    (l : List CulturalNotification) :
    (markFirstRead u nid l).1 = true →
      ∃ j, ∃ hj : j < l.length,
        (l.get ⟨j, hj⟩).user_id = u ∧
        (l.get ⟨j, hj⟩).notification_id = nid ∧
        (markFirstRead u nid l).2 =
          l.set j { l.get ⟨j, hj⟩ with read := true } := by
  induction l with
  | nil => intro h; exact absurd h (by simp [markFirstRead])
  | cons n rest ih =>
    intro h
    by_cases hm : (n.user_id == u && n.notification_id == nid) = true
    · have hm2 := hm
      rw [Bool.and_eq_true, beq_iff_eq, beq_iff_eq] at hm2
      refine ⟨0, by simp, hm2.1, hm2.2, ?_⟩
      simp only [markFirstRead, if_pos hm]
      rfl
    · have hstep : markFirstRead u nid (n :: rest) =
          ((markFirstRead u nid rest).1,
           n :: (markFirstRead u nid rest).2) := by
        simp only [markFirstRead]
        rw [if_neg hm]
      rw [hstep] at h
      obtain ⟨j, hj, h1, h2, h3⟩ := ih h
      refine ⟨j + 1, by simpa using Nat.succ_lt_succ hj, ?_, ?_, ?_⟩
      · simpa using h1
      · simpa using h2
      · rw [hstep]
        simp only [List.set_cons_succ]
        rw [h3]
        rfl

/-- C10: `mark_notification_read` returns `True` exactly when some priority
queue holds a notification of the subscriber with the given id; on `True`
the only change is that one matching notification gets its read flag set
(queue membership, order and length, the other queues, the statistics,
preferences and rate-limit clocks are untouched); on `False` the whole
state is unchanged. -/
theorem mark_notification_read_frame (s : ServiceState) (u nid : String) :
    ((markNotificationRead s u nid).1 = true ↔
      ∃ p, ∃ n ∈ queueOf s p, n.user_id = u ∧ n.notification_id = nid)
    ∧ ((markNotificationRead s u nid).1 = false →
        (markNotificationRead s u nid).2 = s)
    ∧ ((markNotificationRead s u nid).2.stats = s.stats ∧
       (markNotificationRead s u nid).2.user_preferences =
         s.user_preferences ∧
       (markNotificationRead s u nid).2.last_notification_time =
         s.last_notification_time)
    ∧ ((markNotificationRead s u nid).1 = true →
        ∃ p j, ∃ hj : j < (queueOf s p).length,
          ((queueOf s p).get ⟨j, hj⟩).user_id = u ∧
          ((queueOf s p).get ⟨j, hj⟩).notification_id = nid ∧
          (markNotificationRead s u nid).2 =
            setQueue s p ((queueOf s p).set j
              { (queueOf s p).get ⟨j, hj⟩ with read := true })) := by
  by_cases hbl : (markFirstRead u nid s.queue_low).1 = true
  · have hres : markNotificationRead s u nid =
        (true, { s with queue_low := (markFirstRead u nid s.queue_low).2 }) := by
      simp only [markNotificationRead]
      rw [if_pos hbl]
    obtain ⟨j, hj, h1, h2, h3⟩ := markFirstRead_true u nid s.queue_low hbl
    refine ⟨⟨fun _ => ⟨NotificationPriority.low, s.queue_low.get ⟨j, hj⟩,
        List.get_mem _ _ _, h1, h2⟩, fun _ => by rw [hres]⟩,
      ?_, by rw [hres]; exact ⟨rfl, rfl, rfl⟩, ?_⟩
    · intro hfalse
      rw [hres] at hfalse
      exact absurd hfalse (by simp)
    · intro _
      refine ⟨NotificationPriority.low, j, hj, h1, h2, ?_⟩
      rw [hres, h3]
      rfl
  · by_cases hbm : (markFirstRead u nid s.queue_medium).1 = true
    · have hres : markNotificationRead s u nid =
          (true,
           { s with queue_medium := (markFirstRead u nid s.queue_medium).2 }) := by
        simp only [markNotificationRead]
        rw [if_neg hbl, if_pos hbm]
      obtain ⟨j, hj, h1, h2, h3⟩ := markFirstRead_true u nid s.queue_medium hbm
      refine ⟨⟨fun _ => ⟨NotificationPriority.medium,
          s.queue_medium.get ⟨j, hj⟩, List.get_mem _ _ _, h1, h2⟩,
          fun _ => by rw [hres]⟩,
        ?_, by rw [hres]; exact ⟨rfl, rfl, rfl⟩, ?_⟩
      · intro hfalse
        rw [hres] at hfalse
        exact absurd hfalse (by simp)
      · intro _
        refine ⟨NotificationPriority.medium, j, hj, h1, h2, ?_⟩
        rw [hres, h3]
        rfl
    · by_cases hbh : (markFirstRead u nid s.queue_high).1 = true
      · have hres : markNotificationRead s u nid =
            (true,
             { s with queue_high := (markFirstRead u nid s.queue_high).2 }) := by
          simp only [markNotificationRead]
          rw [if_neg hbl, if_neg hbm, if_pos hbh]
        obtain ⟨j, hj, h1, h2, h3⟩ := markFirstRead_true u nid s.queue_high hbh
        refine ⟨⟨fun _ => ⟨NotificationPriority.high,
            s.queue_high.get ⟨j, hj⟩, List.get_mem _ _ _, h1, h2⟩,
            fun _ => by rw [hres]⟩,
          ?_, by rw [hres]; exact ⟨rfl, rfl, rfl⟩, ?_⟩
        · intro hfalse
          rw [hres] at hfalse
          exact absurd hfalse (by simp)
        · intro _
          refine ⟨NotificationPriority.high, j, hj, h1, h2, ?_⟩
          rw [hres, h3]
          rfl
      · by_cases hbu : (markFirstRead u nid s.queue_urgent).1 = true
        · have hres : markNotificationRead s u nid =
              (true,
               { s with queue_urgent :=
                  (markFirstRead u nid s.queue_urgent).2 }) := by
            simp only [markNotificationRead]
            rw [if_neg hbl, if_neg hbm, if_neg hbh, if_pos hbu]
          obtain ⟨j, hj, h1, h2, h3⟩ :=
            markFirstRead_true u nid s.queue_urgent hbu
          refine ⟨⟨fun _ => ⟨NotificationPriority.urgent,
              s.queue_urgent.get ⟨j, hj⟩, List.get_mem _ _ _, h1, h2⟩,
              fun _ => by rw [hres]⟩,
            ?_, by rw [hres]; exact ⟨rfl, rfl, rfl⟩, ?_⟩
          · intro hfalse
            rw [hres] at hfalse
            exact absurd hfalse (by simp)
          · intro _
            refine ⟨NotificationPriority.urgent, j, hj, h1, h2, ?_⟩
            rw [hres, h3]
            rfl
        · have hres : markNotificationRead s u nid = (false, s) := by
            simp only [markNotificationRead]
            rw [if_neg hbl, if_neg hbm, if_neg hbh, if_neg hbu]
          obtain ⟨_, hnl⟩ := markFirstRead_false u nid s.queue_low
            (by simpa using hbl)
          obtain ⟨_, hnm⟩ := markFirstRead_false u nid s.queue_medium
            (by simpa using hbm)
          obtain ⟨_, hnh⟩ := markFirstRead_false u nid s.queue_high
            (by simpa using hbh)
          obtain ⟨_, hnu⟩ := markFirstRead_false u nid s.queue_urgent
            (by simpa using hbu)
          refine ⟨⟨?_, ?_⟩, fun _ => by rw [hres],
            by rw [hres]; exact ⟨rfl, rfl, rfl⟩, ?_⟩
          · intro htrue
            rw [hres] at htrue
            exact absurd htrue (by simp)
          · rintro ⟨p, np, hnp, hu1, hu2⟩
            exfalso
            cases p
            · exact hnl np hnp ⟨hu1, hu2⟩
            · exact hnm np hnp ⟨hu1, hu2⟩
            · exact hnh np hnp ⟨hu1, hu2⟩
            · exact hnu np hnp ⟨hu1, hu2⟩
          · intro htrue
            rw [hres] at htrue
            exact absurd htrue (by simp)

/-- Witness for C10: both outcomes at a concrete state holding one medium
notification, the implications discharged by computation. -/
theorem mark_notification_read_frame_witness :
    ((markNotificationRead w10State "user-1" "n7").1 = true ↔
      ∃ p, ∃ n ∈ queueOf w10State p,
        n.user_id = "user-1" ∧ n.notification_id = "n7")
    ∧ (markNotificationRead w10State "user-2" "nx").2 = w10State
    ∧ ∃ p j, ∃ hj : j < (queueOf w10State p).length,
        ((queueOf w10State p).get ⟨j, hj⟩).user_id = "user-1" ∧
        ((queueOf w10State p).get ⟨j, hj⟩).notification_id = "n7" ∧
        (markNotificationRead w10State "user-1" "n7").2 =
          setQueue w10State p ((queueOf w10State p).set j
            { (queueOf w10State p).get ⟨j, hj⟩ with read := true }) :=
  ⟨(mark_notification_read_frame w10State "user-1" "n7").1,
   (mark_notification_read_frame w10State "user-2" "nx").2.1 rfl,
   (mark_notification_read_frame w10State "user-1" "n7").2.2.2 rfl⟩

end NotificationModel

namespace CQRSModel

/-- C8: at a concrete state, `send_command` for the diversity score command
runs the handler (the event is durably appended at version 1 with the new
score 4/5) and dispatches before returning, yet the profile query issued
right after still reads the old score 1/5: the dispatchers read-model
update methods are `pass` stubs, so the claimed visibility of the command
effects in the projections does not hold. -/
theorem send_command_dispatch_stub_divergence :
    (∃ e, (sendCommandUpdateDiversityScore w8State w8Cmd 1000 "e1" "c1").1 =
        Except.ok e ∧
      e.event_data.new_score = some (4 / 5) ∧ e.version = 1) ∧
    ((sendQueryGetCulturalProfile
        (sendCommandUpdateDiversityScore w8State w8Cmd 1000 "e1" "c1").2
        "user-1").map (fun p => p.diversity_score) = some (1 / 5)) ∧
    (1 / 5 : ℚ) ≠ 4 / 5 := by
  refine ⟨⟨_, rfl, rfl, rfl⟩, rfl, by norm_num⟩

end CQRSModel
